import Mathlib

/-!
Verification of the ReMidt Renovasjon integration's API client
(`custom_components/remidt_renovasjon/api.py`) and data coordinator
(`custom_components/remidt_renovasjon/coordinator.py`) against its
natural-language specification.

The Python code is shallowly embedded: pure data manipulation becomes Lean
functions, exceptions become `Except`, and the network layer is represented by
an explicit outcome value (timeout / HTTP response / transport error) fed to
the translated error-classification code.
-/

/-- A parsed timestamp, with day-granularity calendar component separated from
the time of day, mirroring Python `datetime` where `.date()` drops the time
component.  `day` is the proleptic-Gregorian ordinal (as `datetime.date.toordinal`),
`tod` the second within the day. -/
structure DateTime where
  day : Nat
  tod : Nat
deriving DecidableEq

/-- Python `datetime` comparison (naive wall-clock order): by calendar day,
then by time of day. -/
def DateTime.le (a b : DateTime) : Prop :=
  a.day < b.day ∨ (a.day = b.day ∧ a.tod ≤ b.tod)

instance (a b : DateTime) : Decidable (DateTime.le a b) := by
  unfold DateTime.le; infer_instance

/-- Gregorian leap-year rule used by Python `datetime.date`. -/
def isLeap (y : Nat) : Bool :=
  y % 4 == 0 && (y % 100 != 0 || y % 400 == 0)

/-- Number of days in month `m` of year `y` (Python `calendar` rule). -/
def daysInMonth (y m : Nat) : Nat :=
  if m = 2 then (if isLeap y then 29 else 28)
  else if m = 4 ∨ m = 6 ∨ m = 9 ∨ m = 11 then 30
  else 31

/-- Days in year `y` strictly before month `m`. -/
def daysBeforeMonth (y m : Nat) : Nat :=
  (List.range (m - 1)).foldl (fun acc i => acc + daysInMonth y (i + 1)) 0

/-- Proleptic-Gregorian ordinal of a calendar date, as
`datetime.date(y, m, d).toordinal()`. -/
def toOrdinal (y m d : Nat) : Nat :=
  365 * (y - 1) + (y - 1) / 4 - (y - 1) / 100 + (y - 1) / 400 + daysBeforeMonth y m + d

/-- Numeric value of a decimal digit character, if it is one. -/
def digitVal (c : Char) : Option Nat :=
  if c.isDigit then some (c.toNat - 48) else none

/-- Two decimal digits as a number. -/
def parse2 (a b : Char) : Option Nat := do
  let x ← digitVal a
  let y ← digitVal b
  some (10 * x + y)

/-- Four decimal digits as a number. -/
def parse4 (a b c d : Char) : Option Nat := do
  let x ← parse2 a b
  let y ← parse2 c d
  some (100 * x + y)

/-- Whether the character list is a valid (possibly absent) UTC-offset suffix
`±HH:MM` of an ISO-8601 timestamp. -/
def validOffset (cs : List Char) : Bool :=
  match cs with
  | [] => true
  | sign :: h1 :: h2 :: c :: m1 :: m2 :: [] =>
      (sign == '+' || sign == '-') && c == ':' &&
      (match parse2 h1 h2, parse2 m1 m2 with
       | some h, some m => decide (h < 24) && decide (m < 60)
       | _, _ => false)
  | _ => false

/-- Whether the character list is a valid tail after the seconds field:
an optional fractional-seconds part (1 to 6 digits) followed by an optional
UTC offset. -/
def validTail (cs : List Char) : Bool :=
  match cs with
  | [] => true
  | c :: rest =>
      if c == '.' then
        let ds := rest.takeWhile Char.isDigit
        decide (1 ≤ ds.length) && decide (ds.length ≤ 6) && validOffset (rest.drop ds.length)
      else validOffset (c :: rest)

/-- Time-of-day (in seconds) of the character list after the date separator:
`HH:MM`, `HH:MM:SS`, optionally followed by fractional seconds and a UTC
offset.  Fractional seconds and the offset are validated but do not contribute
to the stored time (the model orders timestamps by naive wall-clock value). -/
def parseTimeOfDay (cs : List Char) : Option Nat :=
  match cs with
  | h1 :: h2 :: c :: m1 :: m2 :: rest =>
      if c == ':' then
        match parse2 h1 h2, parse2 m1 m2 with
        | some h, some m =>
            if h < 24 ∧ m < 60 then
              match rest with
              | [] => some (h * 3600 + m * 60)
              | c2 :: s1 :: s2 :: rest2 =>
                  if c2 == ':' then
                    match parse2 s1 s2 with
                    | some s =>
                        if s < 60 ∧ validTail rest2 then some (h * 3600 + m * 60 + s)
                        else none
                    | none => none
                  else if validOffset (c2 :: s1 :: s2 :: rest2) then some (h * 3600 + m * 60)
                  else none
              | other => if validOffset other then some (h * 3600 + m * 60) else none
            else none
        | _, _ => none
      else none
  | _ => none

/-- Model of Python `datetime.fromisoformat` (stdlib), restricted to the
extended-format timestamps this API emits: `YYYY-MM-DD`, optionally followed
by a single separator character and a time `HH:MM[:SS[.ffffff]][±HH:MM]`.
Returns `none` where Python raises `ValueError` (malformed text, month, day,
hour, minute or second out of range, year 0). -/
def fromisoformat (s : String) : Option DateTime :=
  match s.data with
  | y1 :: y2 :: y3 :: y4 :: c1 :: m1 :: m2 :: c2 :: d1 :: d2 :: rest =>
      if c1 == '-' && c2 == '-' then
        match parse4 y1 y2 y3 y4, parse2 m1 m2, parse2 d1 d2 with
        | some y, some m, some d =>
            if 1 ≤ y ∧ 1 ≤ m ∧ m ≤ 12 ∧ 1 ≤ d ∧ d ≤ daysInMonth y m then
              match rest with
              | [] => some ⟨toOrdinal y m d, 0⟩
              | _ :: timeChars =>
                  match parseTimeOfDay timeChars with
                  | some t => some ⟨toOrdinal y m d, t⟩
                  | none => none
            else none
        | _, _, _ => none
      else none
  | _ => none

/-- Model of `date_str.replace("Z", "+00:00")` in `WasteDisposal.from_dict`:
every occurrence of the character `Z` is replaced by `+00:00`. -/
def replaceZ (s : String) : String :=
  String.mk (s.data.foldr
    (fun c acc => if c == 'Z' then '+' :: '0' :: '0' :: ':' :: '0' :: '0' :: acc else c :: acc)
    [])

/-- A JSON scalar, as delivered for a single field of a disposals item. -/
inductive JVal where
  | jstr (s : String)
  | jnum (n : Int)
  | jbool (b : Bool)
  | jnull
deriving DecidableEq

/-- Whether the JSON value is a string (only strings have the `.replace`
method used on the date field). -/
def JVal.isStr : JVal → Bool
  | .jstr _ => true
  | _ => false

/-- One raw item of the `disposals` JSON list, with each field optional
(absent key versus present value). The `date` field keeps its JSON type since
`from_dict` calls a string method on it; the remaining fields are carried at
their schema types. -/
structure RawItem where
  date : Option JVal
  fraction : Option String
  description : Option String
  symbolId : Option Int
deriving DecidableEq

/-- The Python exception kinds `WasteDisposal.from_dict` can raise:
`KeyError` (missing required key), `ValueError` (unparsable date text) and
`AttributeError` (`.replace` on a non-string date value). -/
inductive MapErr where
  | keyError
  | valueError
  | attributeError
deriving DecidableEq

instance {ε α : Type} [DecidableEq ε] [DecidableEq α] : DecidableEq (Except ε α) := fun x y =>
  match x, y with
  | .ok a, .ok b =>
      if h : a = b then .isTrue (h ▸ rfl)
      else .isFalse (fun hc => h (Except.ok.inj hc))
  | .ok _, .error _ => .isFalse (fun hc => Except.noConfusion hc)
  | .error _, .ok _ => .isFalse (fun hc => Except.noConfusion hc)
  | .error a, .error b =>
      if h : a = b then .isTrue (h ▸ rfl)
      else .isFalse (fun hc => h (Except.error.inj hc))

/-- A waste disposal event (dataclass `WasteDisposal` in api.py). -/
structure WasteDisposal where
  date : DateTime
  fraction : String
  description : Option String
  symbol_id : Int
deriving DecidableEq

/-- Translation of `WasteDisposal.from_dict`: look up `date` (KeyError when
missing), call `.replace("Z", "+00:00")` on it (AttributeError when it is not
a string), parse with `fromisoformat` (ValueError on failure), look up
`fraction` (KeyError when missing), and default `description` to `None` and
`symbolId` to `0`. -/
def WasteDisposal.from_dict (data : RawItem) : Except MapErr WasteDisposal :=
  match data.date with
  | none => .error .keyError
  | some dv =>
      match dv with
      | .jstr date_str =>
          match fromisoformat (replaceZ date_str) with
          | none => .error .valueError
          | some date =>
              match data.fraction with
              | none => .error .keyError
              | some fr => .ok ⟨date, fr, data.description, data.symbolId.getD 0⟩
      | _ => .error .attributeError

/-- Ascending-date order on disposals (the sort key `lambda d: d.date`). -/
def dateLe (a b : WasteDisposal) : Prop := DateTime.le a.date b.date

instance : DecidableRel dateLe := fun a b => by
  unfold dateLe; infer_instance

instance : IsTotal WasteDisposal dateLe :=
  ⟨by intro a b; unfold dateLe DateTime.le; omega⟩

instance : IsTrans WasteDisposal dateLe :=
  ⟨by intro a b c; unfold dateLe DateTime.le; omega⟩

instance : IsRefl WasteDisposal dateLe :=
  ⟨by intro a; unfold dateLe DateTime.le; omega⟩

/-- The parsed JSON body of the address-details endpoint: the `disposals`
field, which may be absent (`data.get("disposals", [])`). -/
structure DetailsResponse where
  disposals : Option (List RawItem)
deriving DecidableEq

/-- Translation of the per-item loop in `get_disposals`: each item is mapped
through `WasteDisposal.from_dict`; `KeyError` and `ValueError` are caught
(the item is logged and skipped); any other exception propagates and aborts
the whole call. -/
def parseDisposals : List RawItem → Except MapErr (List WasteDisposal)
  | [] => .ok []
  | item :: rest =>
      match WasteDisposal.from_dict item with
      | .ok d =>
          match parseDisposals rest with
          | .ok ds => .ok (d :: ds)
          | .error e => .error e
      | .error .keyError => parseDisposals rest
      | .error .valueError => parseDisposals rest
      | .error .attributeError => .error .attributeError

/-- The items of a batch that map successfully through
`WasteDisposal.from_dict`, in input order. -/
def validItems (items : List RawItem) : List WasteDisposal :=
  items.filterMap (fun it => (WasteDisposal.from_dict it).toOption)

/-- Translation of the post-request part of `RenovasjonApiClient.get_disposals`:
read `disposals` (defaulting to the empty list), map and skip per item, then
sort ascending by date.  Python `list.sort` is stable; so is
`List.insertionSort`, and a stable sort by a fixed key is unique as a
function, so the two agree. -/
def get_disposals (body : DetailsResponse) : Except MapErr (List WasteDisposal) :=
  match parseDisposals (body.disposals.getD []) with
  | .ok ds => .ok (List.insertionSort dateLe ds)
  | .error e => .error e

/-- Translation of the dict-building loop in `get_disposals_by_fraction`: the
Python dict is modelled as an insertion-ordered association list; a new
fraction key is appended at the end, an existing bucket gets the disposal
appended. -/
def addDisposal : List (String × List WasteDisposal) → WasteDisposal → List (String × List WasteDisposal)
  | [], d => [(d.fraction, [d])]
  | (k, v) :: rest, d =>
      if k = d.fraction then (k, v ++ [d]) :: rest
      else (k, v) :: addDisposal rest d

/-- The grouping loop of `get_disposals_by_fraction` over an already-fetched
disposal list. -/
def groupByFraction (ds : List WasteDisposal) : List (String × List WasteDisposal) :=
  ds.foldl addDisposal []

/-- Dict key lookup (first entry with the key, as in a Python dict). -/
def lookupFraction (m : List (String × List WasteDisposal)) (f : String) : Option (List WasteDisposal) :=
  match m with
  | [] => none
  | (k, v) :: rest => if k = f then some v else lookupFraction rest f

/-- Python `m.get(f, [])`: the bucket of fraction `f`, or the empty list. -/
def getBucket (m : List (String × List WasteDisposal)) (f : String) : List WasteDisposal :=
  (lookupFraction m f).getD []

/-- Translation of `RenovasjonApiClient.get_disposals_by_fraction`: call
`get_disposals`, then partition the sorted result by fraction. -/
def get_disposals_by_fraction (body : DetailsResponse) : Except MapErr (List (String × List WasteDisposal)) :=
  match get_disposals body with
  | .ok ds => .ok (groupByFraction ds)
  | .error e => .error e

/-- The Python exception classes involved in the client's error taxonomy
(api.py lines 22-31), plus the builtin `Exception` root. -/
inductive ExcClass where
  | exception
  | renovasjonApiError
  | renovasjonConnectionError
  | renovasjonAddressNotFoundError
deriving DecidableEq

/-- Method-resolution chain of each class, read off the class declarations:
`RenovasjonApiError(Exception)`, `RenovasjonConnectionError(RenovasjonApiError)`,
`RenovasjonAddressNotFoundError(RenovasjonApiError)`. -/
def ExcClass.mro : ExcClass → List ExcClass
  | .exception => [.exception]
  | .renovasjonApiError => [.renovasjonApiError, .exception]
  | .renovasjonConnectionError => [.renovasjonConnectionError, .renovasjonApiError, .exception]
  | .renovasjonAddressNotFoundError => [.renovasjonAddressNotFoundError, .renovasjonApiError, .exception]

/-- Python `issubclass`: membership in the method-resolution chain. -/
def ExcClass.isSubclassOf (c d : ExcClass) : Bool :=
  decide (d ∈ c.mro)

/-- A raised Python exception: its class and its message (`str(err)`). -/
structure PyExc where
  cls : ExcClass
  msg : String
deriving DecidableEq

/-- The HTTP response the session hands back for a completed request. -/
structure HttpResponse (β : Type) where
  status : Nat
  message : String
  body : β
deriving DecidableEq

/-- How one `session.get` turns out, as observed by `_request`: the 30-second
total timeout fires (`TimeoutError`), a response arrives, or the transport
fails below the HTTP layer (`aiohttp.ClientError`). -/
inductive FetchOutcome (β : Type) where
  | timeout
  | response (r : HttpResponse β)
  | transportError (msg : String)
deriving DecidableEq

/-- Translation of `RenovasjonApiClient._request`'s error classification.
`response.raise_for_status()` (aiohttp) raises `ClientResponseError` exactly
when the status is at least 400; the `except` clauses then map `TimeoutError`
to `RenovasjonConnectionError`, `ClientResponseError` with status 404 to
`RenovasjonAddressNotFoundError` and with any other status to
`RenovasjonApiError`, and remaining `aiohttp.ClientError`s to
`RenovasjonConnectionError`. -/
def request {β : Type} (outcome : FetchOutcome β) : Except PyExc β :=
  match outcome with
  | .timeout => .error ⟨.renovasjonConnectionError, "Timeout connecting to Renovasjonsportal API"⟩
  | .transportError m => .error ⟨.renovasjonConnectionError, "Connection error: " ++ m⟩
  | .response r =>
      if 400 ≤ r.status then
        if r.status = 404 then .error ⟨.renovasjonAddressNotFoundError, "Address not found"⟩
        else .error ⟨.renovasjonApiError, "API error: " ++ toString r.status ++ " " ++ r.message⟩
      else .ok r.body

/-- UTF-8 encoding of one Unicode code point, as the byte values Python
produces before percent-encoding. -/
def utf8EncodeChar (n : Nat) : List Nat :=
  if n < 128 then [n]
  else if n < 2048 then [192 + n / 64, 128 + n % 64]
  else if n < 65536 then [224 + n / 4096, 128 + n / 64 % 64, 128 + n % 64]
  else [240 + n / 262144, 128 + n / 4096 % 64, 128 + n / 64 % 64, 128 + n % 64]

/-- UTF-8 byte sequence of a string. -/
def utf8Bytes (s : String) : List Nat :=
  (s.data.map (fun c => utf8EncodeChar c.toNat)).flatten

/-- The bytes `urllib.parse.quote` never escapes (its `_ALWAYS_SAFE` set):
ASCII letters, digits, and `_`, `.`, `-`, `~`.  With `safe=""` nothing else
is kept literal. -/
def isUnreservedByte (b : Nat) : Bool :=
  (65 ≤ b && b ≤ 90) || (97 ≤ b && b ≤ 122) || (48 ≤ b && b ≤ 57) ||
  b == 45 || b == 46 || b == 95 || b == 126

/-- Character code of an uppercase hexadecimal digit. -/
def hexDigitCode (n : Nat) : Nat :=
  if n < 10 then 48 + n else 55 + n

/-- Percent-encoding of a byte sequence with `safe=""`: unreserved bytes pass
through, every other byte becomes `%` followed by two uppercase hex digits.
The output string is represented by its character codes. -/
def quoteCodes : List Nat → List Nat
  | [] => []
  | b :: rest =>
      (if isUnreservedByte b then [b]
       else [37, hexDigitCode (b / 16), hexDigitCode (b % 16)]) ++ quoteCodes rest

/-- Translation of `quote(query, safe="")` in `search_address`. -/
def quoteQuery (s : String) : List Nat :=
  quoteCodes (utf8Bytes s)

/-- Character codes of a string. -/
def stringCodes (s : String) : List Nat :=
  s.data.map Char.toNat

/-- Character codes of the fixed part of `API_ADDRESS_SEARCH`
(const.py: `f"{API_BASE_URL}/address/{{query}}"`). -/
def searchUrlBaseCodes : List Nat :=
  stringCodes "https://kalender.renovasjonsportal.no/api/address/"

/-- Translation of the URL construction in `search_address`:
`API_ADDRESS_SEARCH.format(query=quote(query, safe=""))`, as character
codes. -/
def searchUrlCodes (query : String) : List Nat :=
  searchUrlBaseCodes ++ quoteQuery query

/-- Character codes of the URI reserved characters (gen-delims and
sub-delims of RFC 3986) together with the space:
`: / ? # [ ] @ ! $ & apostrophe ( ) * + , ; =` and the blank. -/
def reservedCodes : List Nat :=
  [58, 47, 63, 35, 91, 93, 64, 33, 36, 38, 39, 40, 41, 42, 43, 44, 59, 61, 32]

/-- The snapshot held by the coordinator (`RenovasjonData` in
coordinator.py); `last_update` records the construction instant. -/
structure RenovasjonData where
  address_id : String
  address_name : String
  municipality : String
  disposals_by_fraction : List (String × List WasteDisposal)
  last_update : DateTime
deriving DecidableEq

/-- Translation of `RenovasjonData.get_next_disposal`: scan the fraction's
bucket (empty when the fraction is unknown) for the first disposal whose
calendar day is on or after today's; the current instant is passed
explicitly in place of `datetime.now()`. -/
def RenovasjonData.get_next_disposal (data : RenovasjonData) (fraction : String) (now : DateTime) : Option WasteDisposal :=
  (getBucket data.disposals_by_fraction fraction).find?
    (fun d => decide (now.day ≤ d.date.day))

/-- Translation of `RenovasjonData.get_upcoming_disposals`: keep the
today-or-later entries of the fraction's bucket, truncated to `limit`. -/
def RenovasjonData.get_upcoming_disposals (data : RenovasjonData) (fraction : String) (limit : Nat) (now : DateTime) : List WasteDisposal :=
  ((getBucket data.disposals_by_fraction fraction).filter
    (fun d => decide (now.day ≤ d.date.day))).take limit

/-- Translation of `RenovasjonData.get_days_until`: the next disposal's
calendar day minus today's, in whole days, or `none` without a next
disposal. -/
def RenovasjonData.get_days_until (data : RenovasjonData) (fraction : String) (now : DateTime) : Option Int :=
  match data.get_next_disposal fraction now with
  | none => none
  | some d => some ((d.date.day : Int) - (now.day : Int))

/-- The host framework's "update failed" signal (`UpdateFailed`), carrying a
human-readable message. -/
structure UpdateFailed where
  message : String
deriving DecidableEq

/-- The identity triple the coordinator is constructed from
(config-entry data). -/
structure CoordinatorConfig where
  address_id : String
  address_name : String
  municipality : String
deriving DecidableEq

/-- Translation of `RenovasjonCoordinator._async_update_data`: the client
call's outcome is passed in as a value (the grouped disposals, or the raised
exception).  On success a fresh snapshot is built; the `except` clauses
(matched by `issubclass`, in source order) wrap `RenovasjonConnectionError`,
then `RenovasjonApiError`, then any remaining exception into `UpdateFailed`
with the original message appended to a fixed prefix. -/
def async_update_data (cfg : CoordinatorConfig) (now : DateTime)
    (fetch : Except PyExc (List (String × List WasteDisposal))) : Except UpdateFailed RenovasjonData :=
  match fetch with
  | .ok b => .ok ⟨cfg.address_id, cfg.address_name, cfg.municipality, b, now⟩
  | .error e =>
      if e.cls.isSubclassOf .renovasjonConnectionError then
        .error ⟨"Connection error: " ++ e.msg⟩
      else if e.cls.isSubclassOf .renovasjonApiError then
        .error ⟨"API error: " ++ e.msg⟩
      else
        .error ⟨"Unexpected error: " ++ e.msg⟩

/-- One refresh cycle of the host framework's `DataUpdateCoordinator`,
modelled from its documented contract as the spec assumes it: when the update
method returns data, that data replaces the held snapshot; when it raises
`UpdateFailed`, the held snapshot is kept unchanged and the failure is
reported alongside. -/
def refreshStep (prev : Option RenovasjonData) (cfg : CoordinatorConfig) (now : DateTime)
    (fetch : Except PyExc (List (String × List WasteDisposal))) :
    Option RenovasjonData × Option UpdateFailed :=
  match async_update_data cfg now fetch with
  | .ok d => (some d, none)
  | .error u => (prev, some u)

/-- Consumer-facing read of the next disposal over the held state
(sensor.py `native_value`): `None` while no snapshot exists, else the
snapshot's query. -/
def coordNextDisposal (st : Option RenovasjonData) (fraction : String) (now : DateTime) : Option WasteDisposal :=
  match st with
  | none => none
  | some d => d.get_next_disposal fraction now

/-- Consumer-facing read of the upcoming disposals over the held state
(sensor.py `extra_state_attributes`): empty while no snapshot exists. -/
def coordUpcomingDisposals (st : Option RenovasjonData) (fraction : String) (limit : Nat) (now : DateTime) : List WasteDisposal :=
  match st with
  | none => []
  | some d => d.get_upcoming_disposals fraction limit now

/-- Consumer-facing read of the days until the next disposal over the held
state: `None` while no snapshot exists. -/
def coordDaysUntil (st : Option RenovasjonData) (fraction : String) (now : DateTime) : Option Int :=
  match st with
  | none => none
  | some d => d.get_days_until fraction now

/-- Example raw item: Matavfall collected 2026-01-08 (spec example data). -/
def itemMat8 : RawItem := ⟨some (.jstr "2026-01-08T00:00:00"), some "Matavfall", none, none⟩

/-- Example raw item: Matavfall collected 2026-01-22. -/
def itemMat22 : RawItem := ⟨some (.jstr "2026-01-22T00:00:00"), some "Matavfall", none, none⟩

/-- Example raw item: Papir collected 2026-02-05. -/
def itemPapir : RawItem := ⟨some (.jstr "2026-02-05T00:00:00"), some "Papir", none, none⟩

/-- Example raw item with the required `date` key missing. -/
def itemNoDate : RawItem := ⟨none, some "Ukjent", none, none⟩

/-- Example raw item whose `date` key is present but holds a number, not a
string. -/
def itemNumDate : RawItem := ⟨some (.jnum 20260122), some "Matavfall", none, none⟩

/-- Parsed form of `itemMat8`. -/
def dispMat8 : WasteDisposal := ⟨⟨toOrdinal 2026 1 8, 0⟩, "Matavfall", none, 0⟩

/-- Parsed form of `itemMat22`. -/
def dispMat22 : WasteDisposal := ⟨⟨toOrdinal 2026 1 22, 0⟩, "Matavfall", none, 0⟩

/-- Parsed form of `itemPapir`. -/
def dispPapir : WasteDisposal := ⟨⟨toOrdinal 2026 2 5, 0⟩, "Papir", none, 0⟩

/-- Example disposal dated 2026-01-06 (yesterday relative to `nowW`). -/
def dispRestOld : WasteDisposal := ⟨⟨toOrdinal 2026 1 6, 0⟩, "Restavfall", none, 0⟩

/-- Example details body whose items arrive out of date order. -/
def bodyW1 : DetailsResponse := ⟨some [itemPapir, itemMat8]⟩

/-- Example details body with three items across two fractions, out of
order. -/
def bodyW3 : DetailsResponse := ⟨some [itemMat22, itemPapir, itemMat8]⟩

/-- Example batch of three items, the middle one missing its date, the valid
two already in ascending date order. -/
def bodyW4 : DetailsResponse := ⟨some [itemMat8, itemNoDate, itemMat22]⟩

/-- Example batch of three items, the middle one missing its date, the valid
two in descending date order. -/
def bodyCE4 : DetailsResponse := ⟨some [itemMat22, itemNoDate, itemMat8]⟩

/-- Example batch containing an item whose date is a number. -/
def bodyW10 : DetailsResponse := ⟨some [itemMat8, itemNumDate]⟩

/-- Example current instant: midday on 2026-01-07. -/
def nowW : DateTime := ⟨toOrdinal 2026 1 7, 43200⟩

/-- Example snapshot: Matavfall has two future disposals (2026-01-08 and
2026-01-22), Restavfall only one dated yesterday (2026-01-06). -/
def dataW : RenovasjonData :=
  ⟨"id-1", "Sigden 6", "Kristiansund kommune",
   [("Matavfall", [dispMat8, dispMat22]), ("Restavfall", [dispRestOld])], nowW⟩

/-- UTC offset denoted by a six-character `±HH:MM` suffix, in minutes, or
`none` when the characters are not such a suffix. -/
def tzFromTail : List Char → Option Int
  | [sign, h1, h2, c, m1, m2] =>
      if (sign == '+' || sign == '-') && c == ':' then
        match parse2 h1 h2, parse2 m1 m2 with
        | some h, some m =>
            if h < 24 ∧ m < 60 then
              some ((if sign == '-' then (-1 : Int) else 1) * ((h : Int) * 60 + (m : Int)))
            else none
        | _, _ => none
      else none
  | _ => none

/-- The UTC offset Python `datetime.fromisoformat` attaches to a timestamp
string: in the grammar this parser accepts, a `+` or `-` occurs only as the
sign of a trailing `±HH:MM` offset, so a string yields an aware datetime
exactly when its last six characters are such an offset; `none` means the
parsed datetime is naive. -/
def tzOffsetOf (s : String) : Option Int :=
  tzFromTail (s.data.drop (s.data.length - 6))

/-- The UTC offset (or naiveté, `none`) of the datetime that
`WasteDisposal.from_dict` would build for this item, after the
`"Z" → "+00:00"` replacement; items whose date is absent or not a string
never reach the parser, and the value is only meaningful for items that map
successfully. -/
def itemTzOffset (it : RawItem) : Option Int :=
  match it.date with
  | some (.jstr s) => tzOffsetOf (replaceZ s)
  | _ => none

/-- Successful `get_disposals` results are exactly sorted parses. -/
theorem get_disposals_ok_elim (body : DetailsResponse) (ds : List WasteDisposal)
    (h : get_disposals body = Except.ok ds) :
    ∃ l, parseDisposals (body.disposals.getD []) = Except.ok l
      ∧ ds = List.insertionSort dateLe l := by
  unfold get_disposals at h
  cases hp : parseDisposals (body.disposals.getD []) with
  | ok l =>
      rw [hp] at h
      exact ⟨l, rfl, (Except.ok.injEq .. ▸ h).symm⟩
  | error e => rw [hp] at h; cases h

/-- Output of a successful `get_disposals` is sorted (shared helper). -/
theorem sorted_of_get_disposals (body : DetailsResponse) (ds : List WasteDisposal)
    (h : get_disposals body = Except.ok ds) : List.Sorted dateLe ds := by
  obtain ⟨l, _, rfl⟩ := get_disposals_ok_elim body ds h
  exact List.sorted_insertionSort dateLe l

/-- Adding one disposal to the dict appends it to its fraction's bucket and
leaves every other bucket unchanged. -/
theorem getBucket_addDisposal (m : List (String × List WasteDisposal)) (d : WasteDisposal)
    (f : String) :
    getBucket (addDisposal m d) f
      = getBucket m f ++ (if d.fraction = f then [d] else []) := by
  induction m with
  | nil =>
      by_cases hf : d.fraction = f <;>
        simp [addDisposal, getBucket, lookupFraction, hf]
  | cons kv rest ih =>
      obtain ⟨k, v⟩ := kv
      by_cases hk : k = d.fraction
      · by_cases hf : k = f
        · have hdf : d.fraction = f := hk ▸ hf
          simp [addDisposal, getBucket, lookupFraction, hk, hf, hdf]
        · have hdf : ¬ d.fraction = f := fun hc => hf (hk.trans hc)
          simp [addDisposal, getBucket, lookupFraction, hk, hf, hdf]
      · by_cases hf : k = f
        · have hdf : ¬ d.fraction = f := fun hc => hk (hf.trans hc.symm)
          have hfd : ¬ f = d.fraction := fun hc => hdf hc.symm
          simp [addDisposal, getBucket, lookupFraction, hk, hf, hdf, hfd]
        · simp only [addDisposal, getBucket, lookupFraction, if_neg hk, if_neg hf]
          simpa [getBucket] using ih

/-- The grouping fold appends each disposal to its fraction's bucket. -/
theorem getBucket_foldl_addDisposal (l : List WasteDisposal) :
    ∀ (acc : List (String × List WasteDisposal)) (f : String),
      getBucket (l.foldl addDisposal acc) f
        = getBucket acc f ++ l.filter (fun d => decide (d.fraction = f)) := by
  induction l with
  | nil => intro acc f; simp
  | cons d t ih =>
      intro acc f
      rw [List.foldl_cons, ih, getBucket_addDisposal]
      by_cases hf : d.fraction = f <;> simp [hf, List.filter_cons]

/-- Each bucket of the grouped result is the filter of the input sequence on
that fraction. -/
theorem getBucket_groupByFraction (ds : List WasteDisposal) (f : String) :
    getBucket (groupByFraction ds) f = ds.filter (fun d => decide (d.fraction = f)) := by
  unfold groupByFraction
  rw [getBucket_foldl_addDisposal]
  simp [getBucket, lookupFraction]

/-- On a sorted list, the first entry satisfying a predicate is minimal among
all entries satisfying it. -/
theorem findFirst_min_of_sorted {l : List WasteDisposal} {p : WasteDisposal → Bool}
    {d : WasteDisposal} (hs : List.Sorted dateLe l) (hf : l.find? p = some d) :
    ∀ e ∈ l, p e = true → dateLe d e := by
  induction l with
  | nil => cases hf
  | cons a t ih =>
      rw [List.sorted_cons] at hs
      intro e he hpe
      rcases List.mem_cons.mp he with rfl | het
      · cases hpa : p e
        · rw [List.find?_cons, hpa] at hf
          exact absurd hpe (by simp [hpa])
        · rw [List.find?_cons, hpa] at hf
          cases hf
          exact Or.inr ⟨rfl, Nat.le_refl _⟩
      · cases hpa : p a
        · rw [List.find?_cons, hpa] at hf
          exact ih hs.2 hf e het hpe
        · rw [List.find?_cons, hpa] at hf
          cases hf
          exact hs.1 e het

/-- When no item raises an uncaught exception, the parse loop returns exactly
the successfully mapped items, in input order. -/
theorem parseDisposals_eq_validItems (items : List RawItem)
    (h : ∀ it ∈ items, WasteDisposal.from_dict it ≠ Except.error MapErr.attributeError) :
    parseDisposals items = Except.ok (validItems items) := by
  induction items with
  | nil => rfl
  | cons it t ih =>
      have h1 := h it (List.mem_cons_self it t)
      have ht : ∀ x ∈ t, WasteDisposal.from_dict x ≠ Except.error MapErr.attributeError :=
        fun x hx => h x (List.mem_cons_of_mem it hx)
      cases hfd : WasteDisposal.from_dict it with
      | ok d =>
          simp [parseDisposals, hfd, ih ht, validItems, List.filterMap_cons, Except.toOption]
      | error e =>
          cases e with
          | keyError =>
              simp [parseDisposals, hfd, ih ht, validItems, List.filterMap_cons, Except.toOption]
          | valueError =>
              simp [parseDisposals, hfd, ih ht, validItems, List.filterMap_cons, Except.toOption]
          | attributeError => exact absurd hfd h1

/-- A non-string `date` value makes `from_dict` raise `AttributeError`. -/
theorem from_dict_attr_of_nonstring (it : RawItem) (v : JVal)
    (hd : it.date = some v) (hv : v.isStr = false) :
    WasteDisposal.from_dict it = Except.error MapErr.attributeError := by
  unfold WasteDisposal.from_dict
  rw [hd]
  cases v <;> simp_all [JVal.isStr]

/-- An item raising `AttributeError` anywhere in the batch aborts the parse
loop with that error. -/
theorem parseDisposals_attr_of_mem (items : List RawItem) (it : RawItem)
    (hmem : it ∈ items)
    (hattr : WasteDisposal.from_dict it = Except.error MapErr.attributeError) :
    parseDisposals items = Except.error MapErr.attributeError := by
  induction items with
  | nil => cases hmem
  | cons a t ih =>
      rcases List.mem_cons.mp hmem with rfl | hmt
      · simp [parseDisposals, hattr]
      · cases hfd : WasteDisposal.from_dict a with
        | ok d => simp [parseDisposals, hfd, ih hmt]
        | error e =>
            cases e <;> simp [parseDisposals, hfd, ih hmt]

/-- Every Unicode code point is below 0x110000. -/
theorem char_toNat_lt (c : Char) : c.toNat < 1114112 := by
  have h := c.valid
  rcases h with h | ⟨h1, h2⟩
  · exact Nat.lt_trans h (by decide)
  · exact h2

/-- UTF-8 encoding of a valid code point yields bytes. -/
theorem utf8EncodeChar_lt_256 (n : Nat) (hn : n < 1114112) :
    ∀ b ∈ utf8EncodeChar n, b < 256 := by
  intro b hb
  unfold utf8EncodeChar at hb
  split_ifs at hb <;> simp at hb <;> omega

/-- The UTF-8 encoding of a string consists of bytes. -/
theorem utf8Bytes_lt_256 (s : String) : ∀ b ∈ utf8Bytes s, b < 256 := by
  intro b hb
  unfold utf8Bytes at hb
  rw [List.mem_flatten] at hb
  obtain ⟨l, hl, hbl⟩ := hb
  rw [List.mem_map] at hl
  obtain ⟨c, _, rfl⟩ := hl
  exact utf8EncodeChar_lt_256 c.toNat (char_toNat_lt c) b hbl

/-- Percent-encoding with an empty safe set never emits a reserved
character. -/
theorem quoteCodes_not_reserved (bs : List Nat) (hb : ∀ b ∈ bs, b < 256) :
    ∀ c ∈ quoteCodes bs, c ∉ reservedCodes := by
  induction bs with
  | nil => intro c hc; cases hc
  | cons b t ih =>
      intro c hc
      have hb0 : b < 256 := hb b (List.mem_cons_self b t)
      have hbt : ∀ x ∈ t, x < 256 := fun x hx => hb x (List.mem_cons_of_mem b hx)
      unfold quoteCodes at hc
      rcases List.mem_append.mp hc with hcl | hcr
      · by_cases hu : isUnreservedByte b = true
        · rw [if_pos hu] at hcl
          simp at hcl
          subst hcl
          simp only [isUnreservedByte, Bool.or_eq_true, Bool.and_eq_true,
            decide_eq_true_eq, beq_iff_eq] at hu
          simp [reservedCodes]
          omega
        · rw [if_neg hu] at hcl
          have hhex : ∀ k, k < 16 → hexDigitCode k ∉ reservedCodes := by
            intro k hk
            unfold hexDigitCode
            split_ifs <;>
              · simp [reservedCodes]
                omega
          simp only [List.mem_cons, List.not_mem_nil, or_false] at hcl
          rcases hcl with rfl | rfl | rfl
          · simp [reservedCodes]
          · exact hhex (b / 16) (by omega)
          · exact hhex (b % 16) (by omega)
      · exact ih hbt c hcr

/-- C1: for every disposals response, whatever the order of the `disposals`
list, the sequence returned by `get_disposals` is sorted non-decreasing by
date. -/
theorem get_disposals_sorted (body : DetailsResponse) (ds : List WasteDisposal)
    (h : get_disposals body = Except.ok ds) : List.Sorted dateLe ds :=
  sorted_of_get_disposals body ds h

/-- Witness for C1: a response whose two items arrive in descending date
order still comes back ascending. -/
theorem get_disposals_sorted_witness :
    get_disposals bodyW1 = Except.ok [dispMat8, dispPapir]
    ∧ List.Sorted dateLe [dispMat8, dispPapir] :=
  ⟨by decide, get_disposals_sorted bodyW1 [dispMat8, dispPapir] (by decide)⟩

/-- C3: a successful `get_disposals_by_fraction` partitions the sorted
disposal sequence: each bucket is the date-ordered subsequence of the input
with that fraction (so relative order is preserved), every disposal lies in
exactly the bucket keyed by its own fraction, and each bucket is sorted
ascending by date. -/
theorem get_disposals_by_fraction_partition (body : DetailsResponse)
    (ds : List WasteDisposal) (m : List (String × List WasteDisposal))
    (hds : get_disposals body = Except.ok ds)
    (hm : get_disposals_by_fraction body = Except.ok m) :
    (∀ f, getBucket m f = ds.filter (fun d => decide (d.fraction = f)))
    ∧ (∀ d ∈ ds, ∀ f, (d ∈ getBucket m f ↔ f = d.fraction))
    ∧ (∀ f, List.Sorted dateLe (getBucket m f)) := by
  have hsorted : List.Sorted dateLe ds := sorted_of_get_disposals body ds hds
  have hmg : m = groupByFraction ds := by
    unfold get_disposals_by_fraction at hm
    rw [hds] at hm
    exact (Except.ok.injEq .. ▸ hm).symm
  subst hmg
  refine ⟨fun f => getBucket_groupByFraction ds f, ?_, ?_⟩
  · intro d hd f
    rw [getBucket_groupByFraction, List.mem_filter]
    constructor
    · intro ⟨_, hf⟩
      exact (of_decide_eq_true hf).symm
    · intro hf
      exact ⟨hd, decide_eq_true hf.symm⟩
  · intro f
    rw [getBucket_groupByFraction]
    exact hsorted.filter _

/-- Witness for C3: the spec's example data (two Matavfall dates and one
Papir date), delivered out of order; the Matavfall bucket equals the sorted
sequence filtered to Matavfall. -/
theorem get_disposals_by_fraction_partition_witness :
    getBucket [("Matavfall", [dispMat8, dispMat22]), ("Papir", [dispPapir])] "Matavfall"
      = List.filter (fun d => decide (d.fraction = "Matavfall"))
          [dispMat8, dispMat22, dispPapir] :=
  (get_disposals_by_fraction_partition bodyW3 [dispMat8, dispMat22, dispPapir]
    [("Matavfall", [dispMat8, dispMat22]), ("Papir", [dispPapir])]
    (by decide) (by decide)).1 "Matavfall"

/-- C4 (amended): provided the valid items' dates are timezone-homogeneous
(all naive, or all carrying one same UTC offset — Python raises an uncaught
TypeError at `disposals.sort`, outside the per-item try/except, when naive
and aware datetimes are mixed, and on a uniform offset its instant order
coincides with the model's wall-clock order), an item raising a missing-key
or value error during mapping is skipped and the call succeeds with the
remaining valid items, returned sorted ascending by date; so with N items of
which 1 is invalid the result has N−1 entries, and the relative order of the
valid items is preserved whenever they already appear in ascending date
order. -/
theorem get_disposals_skips_invalid_items (body : DetailsResponse)
    (h : ∀ it ∈ body.disposals.getD [],
      WasteDisposal.from_dict it ≠ Except.error MapErr.attributeError)
    (_htz : ∃ o : Option Int, ∀ it ∈ body.disposals.getD [],
      (WasteDisposal.from_dict it).toOption.isSome = true → itemTzOffset it = o) :
    get_disposals body
      = Except.ok (List.insertionSort dateLe (validItems (body.disposals.getD [])))
    ∧ (List.insertionSort dateLe (validItems (body.disposals.getD []))).length
        = (validItems (body.disposals.getD [])).length
    ∧ (List.Sorted dateLe (validItems (body.disposals.getD [])) →
        get_disposals body = Except.ok (validItems (body.disposals.getD []))) := by
  have hp := parseDisposals_eq_validItems _ h
  have h1 : get_disposals body
      = Except.ok (List.insertionSort dateLe (validItems (body.disposals.getD []))) := by
    unfold get_disposals
    rw [hp]
  refine ⟨h1, List.length_insertionSort dateLe _, ?_⟩
  intro hs
  rw [h1, hs.insertionSort_eq]

/-- Witness for C4: a batch of 3 items with 1 invalid (missing date), the
valid dates all naive hence timezone-homogeneous, yields the 2 valid ones,
which were already in ascending order and come back in the same relative
order. -/
theorem get_disposals_skips_invalid_items_witness :
    (bodyW4.disposals.getD []).length = 3
    ∧ (validItems (bodyW4.disposals.getD [])).length = 2
    ∧ validItems (bodyW4.disposals.getD []) = [dispMat8, dispMat22]
    ∧ get_disposals bodyW4 = Except.ok (validItems (bodyW4.disposals.getD [])) :=
  ⟨by decide, by decide, by decide,
   (get_disposals_skips_invalid_items bodyW4 (by decide) ⟨none, by decide⟩).2.2 (by decide)⟩

/-- Counterexample for C4 as stated: a batch of 3 items with 1 invalid yields
2 results, but because the result is sorted by date the relative input order
of the valid items is not preserved when they arrive out of date order. -/
theorem get_disposals_order_not_preserved_ce :
    (bodyCE4.disposals.getD []).length = 3
    ∧ validItems (bodyCE4.disposals.getD []) = [dispMat22, dispMat8]
    ∧ get_disposals bodyCE4 = Except.ok [dispMat8, dispMat22]
    ∧ ([dispMat8, dispMat22] : List WasteDisposal) ≠ [dispMat22, dispMat8] := by
  refine ⟨by decide, by decide, by decide, by decide⟩

/-- C10: an item whose `date` field is present but not a string makes the
entire `get_disposals` call fail with the uncaught `AttributeError` rather
than skipping the item. -/
theorem get_disposals_nonstring_date_fails (body : DetailsResponse) (it : RawItem)
    (v : JVal) (hmem : it ∈ body.disposals.getD []) (hd : it.date = some v)
    (hv : v.isStr = false) :
    get_disposals body = Except.error MapErr.attributeError := by
  have hfd := from_dict_attr_of_nonstring it v hd hv
  have hp := parseDisposals_attr_of_mem _ _ hmem hfd
  unfold get_disposals
  rw [hp]

/-- Witness for C10: a batch with one valid item and one whose date is the
number 20260122 fails wholesale. -/
theorem get_disposals_nonstring_date_fails_witness :
    get_disposals bodyW10 = Except.error MapErr.attributeError :=
  get_disposals_nonstring_date_fails bodyW10 itemNumDate (JVal.jnum 20260122)
    (by decide) (by decide) (by decide)

/-- C2 (amended): the request path maps a timeout (and any transport-level
failure) to `RenovasjonConnectionError`, an HTTP 404 to
`RenovasjonAddressNotFoundError`, any other HTTP status of at least 400 to
`RenovasjonApiError` (statuses below 400 that reach the client return the
body), the three mappings assign pairwise distinct exception classes, and all
three classes are subclasses of the single `RenovasjonApiError` family. -/
theorem request_error_taxonomy {β : Type} (r : HttpResponse β) (m : String) :
    (request (FetchOutcome.timeout : FetchOutcome β)
        = Except.error ⟨ExcClass.renovasjonConnectionError,
            "Timeout connecting to Renovasjonsportal API"⟩)
    ∧ (request (FetchOutcome.transportError m : FetchOutcome β)
        = Except.error ⟨ExcClass.renovasjonConnectionError, "Connection error: " ++ m⟩)
    ∧ (r.status = 404 →
        request (FetchOutcome.response r)
          = Except.error ⟨ExcClass.renovasjonAddressNotFoundError, "Address not found"⟩)
    ∧ (400 ≤ r.status → r.status ≠ 404 →
        request (FetchOutcome.response r)
          = Except.error ⟨ExcClass.renovasjonApiError,
              "API error: " ++ toString r.status ++ " " ++ r.message⟩)
    ∧ (r.status < 400 → request (FetchOutcome.response r) = Except.ok r.body)
    ∧ ExcClass.isSubclassOf .renovasjonConnectionError .renovasjonApiError = true
    ∧ ExcClass.isSubclassOf .renovasjonAddressNotFoundError .renovasjonApiError = true
    ∧ ExcClass.isSubclassOf .renovasjonApiError .renovasjonApiError = true
    ∧ ExcClass.renovasjonConnectionError ≠ ExcClass.renovasjonAddressNotFoundError
    ∧ ExcClass.renovasjonConnectionError ≠ ExcClass.renovasjonApiError
    ∧ ExcClass.renovasjonAddressNotFoundError ≠ ExcClass.renovasjonApiError := by
  refine ⟨rfl, rfl, ?_, ?_, ?_, by decide, by decide, by decide, by decide, by decide, by decide⟩
  · intro h404
    simp only [request]
    rw [if_pos (show 400 ≤ r.status by omega), if_pos h404]
  · intro hge hne
    simp only [request]
    rw [if_pos hge, if_neg hne]
  · intro hlt
    simp only [request]
    rw [if_neg (show ¬ 400 ≤ r.status by omega)]

/-- Witness for C2: a 404 details response raises the address-not-found
error and a 500 raises the generic API error. -/
theorem request_error_taxonomy_witness :
    request (FetchOutcome.response (⟨404, "Not Found", 0⟩ : HttpResponse Nat))
      = Except.error ⟨ExcClass.renovasjonAddressNotFoundError, "Address not found"⟩
    ∧ request (FetchOutcome.response (⟨500, "Server Error", 0⟩ : HttpResponse Nat))
      = Except.error ⟨ExcClass.renovasjonApiError, "API error: 500 Server Error"⟩ := by
  constructor
  · exact (@request_error_taxonomy Nat ⟨404, "Not Found", 0⟩ "x").2.2.1 rfl
  · exact ((@request_error_taxonomy Nat ⟨500, "Server Error", 0⟩ "x").2.2.2.1
      (by decide) (by decide)).trans (by decide)

/-- Counterexample for C2 as stated: status 300 is not a 2xx status (nor one
aiohttp follows as a redirect), yet the request path returns the body
successfully instead of raising the generic API error, because
`raise_for_status` only raises for statuses of at least 400. -/
theorem request_not_2xx_ok_ce :
    (¬ (200 ≤ 300 ∧ 300 ≤ 299))
    ∧ request (FetchOutcome.response (⟨300, "Multiple Choices", 7⟩ : HttpResponse Nat))
        = Except.ok 7 := by
  exact ⟨by decide, rfl⟩

/-- C8: `search_address` builds its URL from the fixed endpoint base and the
query percent-encoded with an empty safe set, so no reserved character (URI
gen-delims, sub-delims, or the space) ever appears in the encoded query
segment, for any query string. -/
theorem search_address_percent_encoded (query : String) :
    searchUrlCodes query = searchUrlBaseCodes ++ quoteQuery query
    ∧ ∀ c ∈ quoteQuery query, c ∉ reservedCodes := by
  refine ⟨rfl, ?_⟩
  intro c hc
  exact quoteCodes_not_reserved (utf8Bytes query) (utf8Bytes_lt_256 query) c hc

/-- Witness for C8: encoding `"Storgata 1, Oslo"` emits a percent sign (the
space and comma are escaped) and the percent sign is not reserved. -/
theorem search_address_percent_encoded_witness :
    (37 ∈ quoteQuery "Storgata 1, Oslo") ∧ 37 ∉ reservedCodes :=
  ⟨by decide, (search_address_percent_encoded "Storgata 1, Oslo").2 37 (by decide)⟩

/-- Snapshot retention helper: a failing refresh leaves the held state as it
was. -/
theorem refreshStep_error_fst (prev : Option RenovasjonData) (cfg : CoordinatorConfig)
    (now : DateTime) (e : PyExc) :
    (refreshStep prev cfg now (Except.error e)).fst = prev := by
  unfold refreshStep async_update_data
  dsimp only
  split_ifs <;> rfl

/-- C5: a failing refresh is translated into the single generic
`UpdateFailed` signal (whose message is one of the three fixed prefixes
followed by the original exception message, so no raw client exception
escapes), the held snapshot is left unchanged, and after a successful
refresh followed by a failed one every query still answers from the prior
successful snapshot. -/
theorem coordinator_failure_preserves_snapshot (prev : Option RenovasjonData)
    (cfg : CoordinatorConfig) (now now2 : DateTime) (e : PyExc)
    (b : List (String × List WasteDisposal)) (fraction : String) (q : DateTime)
    (limit : Nat) :
    (∃ u : UpdateFailed, async_update_data cfg now2 (Except.error e) = Except.error u
       ∧ (u.message = "Connection error: " ++ e.msg
          ∨ u.message = "API error: " ++ e.msg
          ∨ u.message = "Unexpected error: " ++ e.msg))
    ∧ (refreshStep prev cfg now2 (Except.error e)).fst = prev
    ∧ (refreshStep (refreshStep none cfg now (Except.ok b)).fst cfg now2
         (Except.error e)).fst
        = some ⟨cfg.address_id, cfg.address_name, cfg.municipality, b, now⟩
    ∧ coordNextDisposal
        (refreshStep (refreshStep none cfg now (Except.ok b)).fst cfg now2
          (Except.error e)).fst fraction q
        = RenovasjonData.get_next_disposal
            ⟨cfg.address_id, cfg.address_name, cfg.municipality, b, now⟩ fraction q
    ∧ coordUpcomingDisposals
        (refreshStep (refreshStep none cfg now (Except.ok b)).fst cfg now2
          (Except.error e)).fst fraction limit q
        = RenovasjonData.get_upcoming_disposals
            ⟨cfg.address_id, cfg.address_name, cfg.municipality, b, now⟩ fraction limit q
    ∧ coordDaysUntil
        (refreshStep (refreshStep none cfg now (Except.ok b)).fst cfg now2
          (Except.error e)).fst fraction q
        = RenovasjonData.get_days_until
            ⟨cfg.address_id, cfg.address_name, cfg.municipality, b, now⟩ fraction q := by
  have hkeep : ∀ st : Option RenovasjonData,
      (refreshStep st cfg now2 (Except.error e)).fst = st :=
    fun st => refreshStep_error_fst st cfg now2 e
  have hok : (refreshStep none cfg now (Except.ok b)).fst
      = some ⟨cfg.address_id, cfg.address_name, cfg.municipality, b, now⟩ := rfl
  refine ⟨?_, hkeep prev, ?_, ?_, ?_, ?_⟩
  · unfold async_update_data
    dsimp only
    split_ifs
    · exact ⟨_, rfl, Or.inl rfl⟩
    · exact ⟨_, rfl, Or.inr (Or.inl rfl)⟩
    · exact ⟨_, rfl, Or.inr (Or.inr rfl)⟩
  · rw [hkeep, hok]
  · rw [hkeep, hok]; rfl
  · rw [hkeep, hok]; rfl
  · rw [hkeep, hok]; rfl

/-- C6: against an ascending-sorted fraction sequence, `get_next_disposal`
is none exactly when no entry's date is on or after the current calendar day
(in particular when the fraction's bucket is empty or only holds past
entries); and any returned entry belongs to the sequence, is dated today or
later at day granularity, and is earliest (by timestamp) among all such
entries.  An unknown fraction always yields none. -/
theorem get_next_disposal_characterization (data : RenovasjonData) (fraction : String)
    (now : DateTime)
    (hs : List.Sorted dateLe (getBucket data.disposals_by_fraction fraction)) :
    (data.get_next_disposal fraction now = none ↔
       ∀ d ∈ getBucket data.disposals_by_fraction fraction, d.date.day < now.day)
    ∧ (∀ d, data.get_next_disposal fraction now = some d →
         d ∈ getBucket data.disposals_by_fraction fraction
         ∧ now.day ≤ d.date.day
         ∧ ∀ e ∈ getBucket data.disposals_by_fraction fraction,
             now.day ≤ e.date.day → DateTime.le d.date e.date)
    ∧ (lookupFraction data.disposals_by_fraction fraction = none →
         data.get_next_disposal fraction now = none) := by
  refine ⟨?_, ?_, ?_⟩
  · unfold RenovasjonData.get_next_disposal
    rw [List.find?_eq_none]
    constructor
    · intro h d hd
      have := h d hd
      simp only [decide_eq_true_eq] at this
      omega
    · intro h d hd
      have := h d hd
      simp only [decide_eq_true_eq]
      omega
  · intro d hfind
    have hmem := List.mem_of_find?_eq_some hfind
    have hp := List.find?_some hfind
    simp only [decide_eq_true_eq] at hp
    refine ⟨hmem, hp, ?_⟩
    intro x hx hxday
    exact findFirst_min_of_sorted hs hfind x hx (by simp only [decide_eq_true_eq]; omega)
  · intro hnone
    unfold RenovasjonData.get_next_disposal
    rw [show getBucket data.disposals_by_fraction fraction = [] by
      unfold getBucket; rw [hnone]; rfl]
    rfl

/-- Witness for C6: in the example snapshot, the Restavfall bucket (only a
yesterday entry) yields none, while the returned Matavfall entry is the
earliest of its two future entries. -/
theorem get_next_disposal_characterization_witness :
    dataW.get_next_disposal "Restavfall" nowW = none
    ∧ (dispMat8 ∈ getBucket dataW.disposals_by_fraction "Matavfall"
       ∧ nowW.day ≤ dispMat8.date.day
       ∧ ∀ e ∈ getBucket dataW.disposals_by_fraction "Matavfall",
           nowW.day ≤ e.date.day → DateTime.le dispMat8.date e.date) := by
  constructor
  · exact (get_next_disposal_characterization dataW "Restavfall" nowW (by decide)).1.mpr
      (by decide)
  · exact (get_next_disposal_characterization dataW "Matavfall" nowW (by decide)).2.1
      dispMat8 (by decide)

/-- C7: `get_days_until` is none exactly when `get_next_disposal` is none,
and otherwise equals the next disposal's calendar day minus today's calendar
day, in whole days. -/
theorem get_days_until_characterization (data : RenovasjonData) (fraction : String)
    (now : DateTime) :
    (data.get_days_until fraction now = none ↔
       data.get_next_disposal fraction now = none)
    ∧ (∀ d, data.get_next_disposal fraction now = some d →
        data.get_days_until fraction now
          = some ((d.date.day : Int) - (now.day : Int))) := by
  unfold RenovasjonData.get_days_until
  cases h : data.get_next_disposal fraction now with
  | none => simp
  | some d0 => simp

/-- Witness for C7: the Matavfall disposal dated exactly tomorrow gives 1;
the fraction with no eligible entry gives none. -/
theorem get_days_until_characterization_witness :
    dataW.get_days_until "Matavfall" nowW = some 1
    ∧ dataW.get_days_until "Restavfall" nowW = none := by
  constructor
  · exact ((get_days_until_characterization dataW "Matavfall" nowW).2 dispMat8
      (by decide)).trans (by decide)
  · exact (get_days_until_characterization dataW "Restavfall" nowW).1.mpr (by decide)

/-- C9: every query is a total function of the held snapshot; while no
snapshot exists each consumer-facing query returns none or the empty
sequence, and on a held snapshot an unknown fraction likewise yields none or
the empty sequence — no query raises. -/
theorem queries_on_missing_data (fraction : String) (now : DateTime) (limit : Nat)
    (data : RenovasjonData)
    (hf : lookupFraction data.disposals_by_fraction fraction = none) :
    coordNextDisposal none fraction now = none
    ∧ coordUpcomingDisposals none fraction limit now = []
    ∧ coordDaysUntil none fraction now = none
    ∧ data.get_next_disposal fraction now = none
    ∧ data.get_upcoming_disposals fraction limit now = []
    ∧ data.get_days_until fraction now = none := by
  have hb : getBucket data.disposals_by_fraction fraction = [] := by
    unfold getBucket
    rw [hf]
    rfl
  have hnext : data.get_next_disposal fraction now = none := by
    unfold RenovasjonData.get_next_disposal
    rw [hb]
    rfl
  refine ⟨rfl, rfl, rfl, hnext, ?_, ?_⟩
  · unfold RenovasjonData.get_upcoming_disposals
    rw [hb]
    simp
  · unfold RenovasjonData.get_days_until
    rw [hnext]

/-- Witness for C9: the example snapshot has no Papir bucket, so every query
on Papir returns none or empty, as do the consumer-facing reads while no
snapshot is held. -/
theorem queries_on_missing_data_witness :
    coordNextDisposal none "Papir" nowW = none
    ∧ coordUpcomingDisposals none "Papir" 5 nowW = []
    ∧ coordDaysUntil none "Papir" nowW = none
    ∧ dataW.get_next_disposal "Papir" nowW = none
    ∧ dataW.get_upcoming_disposals "Papir" 5 nowW = []
    ∧ dataW.get_days_until "Papir" nowW = none :=
  queries_on_missing_data "Papir" nowW 5 dataW (by decide)
